import Mathlib

set_option maxHeartbeats 1000000
set_option maxRecDepth 8000

/-!
Shallow embedding of the dirtiestships-website content pipeline.

Sources embedded here:
  * `emissions_news_scraper.py` / `hydrogen_news_scraper.py` — keyword scoring,
    URL dedup, archiving, rolling-index flush (namespaces `Emissions` / `Hydrogen`,
    shared helpers at top level where the two files are textually identical);
  * `check_scheduled_emissions.py` — the publication tick (namespace `Sched`);
  * `emissions_blog_generator.py` — slug generation (namespace `BlogGen`).

External effects (feed fetching, article extraction, Gemini calls, wall clock,
git) are passed in as environment parameters.  Python `str` is modelled by
`String` / `List Char`; library helpers that the code calls
(`str.count`, `in`, `str.replace`, `urllib.parse.urlparse`, `parse_qs`,
`datetime.strptime`) are modelled character-faithfully for ASCII inputs.
-/

/-- Python `str.count` helper: fuel-bounded scan counting non-overlapping
occurrences of `p`, advancing past each match (fuel is the list length, which
always suffices because every step consumes at least one character). -/
def countGo (p : List Char) : Nat → List Char → Nat
  | _, [] => 0
  | 0, _ :: _ => 0
  | fuel + 1, c :: cs =>
      if p.isPrefixOf (c :: cs) then 1 + countGo p fuel (List.drop (p.length - 1) cs)
      else countGo p fuel cs

/-- Python `s.count(p)` on character lists: non-overlapping occurrence count;
an empty pattern counts `len(s) + 1` times, as in Python. -/
def countOccs (p l : List Char) : Nat :=
  if p = [] then l.length + 1 else countGo p l.length l

/-- Python `p in s` substring test on character lists. -/
def isSubList (p : List Char) : List Char → Bool
  | [] => p.isEmpty
  | c :: cs => p.isPrefixOf (c :: cs) || isSubList p cs

/-- Python `needle in hay` on strings. -/
def pyContains (hay needle : String) : Bool := isSubList needle.data hay.data

/-- Python `hay.count(needle)` on strings. -/
def pyCount (hay needle : String) : Nat := countOccs needle.data hay.data

/-- Python `str.lower()` (per-character, ASCII-faithful). -/
def pyLower (s : String) : String := ⟨s.data.map Char.toLower⟩

/-- Python `str.startswith(p)`. -/
def pyStartsWith (s p : String) : Bool := p.data.isPrefixOf s.data

/-- Python `(x or '')` applied to an optional string (both `None` and a missing
value give the empty string; `'' or ''` is also `''`). -/
def pyOrEmpty (o : Option String) : String := o.getD ""

/-- Python truthiness of an optional string: `None` and `""` are falsy. -/
def strTruthy : Option String → Bool
  | none => false
  | some s => !(s == "")

/-- Weight-table lookup modelling Python `dict.get(key, default)`. -/
def tableGet (w : List (String × Nat)) (k : String) (d : Nat) : Nat :=
  match w.lookup k with
  | some v => v
  | none => d

/-- `calculate_score` from `emissions_news_scraper.py` lines 149-171 and
`hydrogen_news_scraper.py` lines 131-153 (the two bodies are identical; the
weight table is the per-file `SCORE_WEIGHTS` dict, modelled as an association
list in insertion order).  `title`/`content` may be `None` in Python, hence
`Option String`. -/
def calculate_score (weights : List (String × Nat)) (title content : Option String) : Nat :=
  let title_lower := pyLower (pyOrEmpty title)
  let content_lower := pyLower (pyOrEmpty content)
  let full_text := title_lower ++ " " ++ content_lower
  weights.foldl (fun score kw =>
    if pyStartsWith kw.1 "_" then score
    else
      let keyword_lower := pyLower kw.1
      let count := pyCount full_text keyword_lower
      if count > 0 then
        let score1 := score + kw.2 * min count 3
        if pyContains title_lower keyword_lower then
          score1 + kw.2 * tableGet weights "_title_multiplier" 2
        else score1
      else score) 0

/-- Per-keyword contribution as the specification describes the scorer:
`weight * min(count, 3)` plus a flat title bonus of `weight * title_multiplier`
whenever the lower-cased keyword occurs in the lower-cased title. -/
def scoreTerm (weights : List (String × Nat)) (title_lower full_text : String)
    (kw : String × Nat) : Nat :=
  kw.2 * min (pyCount full_text (pyLower kw.1)) 3 +
    (if pyContains title_lower (pyLower kw.1) then
      kw.2 * tableGet weights "_title_multiplier" 2
    else 0)

/-- The scorer as the specification states it: the sum over non-underscore
keywords of their `scoreTerm`. -/
def scoreSpec (weights : List (String × Nat)) (title content : Option String) : Nat :=
  let title_lower := pyLower (pyOrEmpty title)
  let content_lower := pyLower (pyOrEmpty content)
  let full_text := title_lower ++ " " ++ content_lower
  ((weights.filter (fun kw => !pyStartsWith kw.1 "_")).map
    (scoreTerm weights title_lower full_text)).sum

/-- Split a character list at the first occurrence of `sep`; `none` when `sep`
does not occur. -/
def splitAtChar (sep : Char) : List Char → Option (List Char × List Char)
  | [] => none
  | c :: cs =>
      if c = sep then some ([], cs)
      else (splitAtChar sep cs).map (fun p => (c :: p.1, p.2))

/-- Split a character list on every occurrence of `sep`, keeping empty pieces,
like Python `str.split(sep)`. -/
def splitAll (sep : Char) : List Char → List (List Char)
  | [] => [[]]
  | c :: cs =>
      if c = sep then [] :: splitAll sep cs
      else
        match splitAll sep cs with
        | [] => [[c]]
        | h :: t => (c :: h) :: t

/-- Characters urllib admits inside a URL scheme after the leading letter. -/
def isSchemeChar (c : Char) : Bool := c.isAlphanum || c = '+' || c = '-' || c = '.'

/-- Model of urllib scheme stripping: when the text before the first `:` is a
well-formed scheme, return the remainder after the colon, else the input. -/
def dropScheme (l : List Char) : List Char :=
  match splitAtChar ':' l with
  | none => l
  | some (pre, rest) =>
      match pre with
      | [] => l
      | c :: cs => if c.isAlpha && cs.all isSchemeChar then rest else l

/-- Everything before the first `#` (urllib splits the fragment off first). -/
def urlMain (l : List Char) : List Char :=
  match splitAtChar '#' l with
  | none => l
  | some (pre, _) => pre

/-- Query component of a URL: the part after the first `?` of the pre-fragment
text, as in `urllib.parse.urlsplit`. -/
def queryOf (url : String) : List Char :=
  match splitAtChar '?' (urlMain url.data) with
  | none => []
  | some (_, q) => q

/-- The part of `l` after its last `@` (drops any userinfo from a netloc). -/
def afterLastAt (l : List Char) : List Char :=
  (l.reverse.takeWhile (fun c => !(c == '@'))).reverse

/-- Model of `urlparse(url).hostname` for absolute URLs: the lower-cased host
part of the netloc (after userinfo, before any port), `none` when the URL has
no `//netloc` part or the host is empty. -/
def hostnameOf (url : String) : Option String :=
  let rest := dropScheme (urlMain url.data)
  if rest.take 2 = ['/', '/'] then
    let net := (rest.drop 2).takeWhile (fun c => !(c == '/' || c == '?' || c == '#'))
    let host := ((afterLastAt net).takeWhile (fun c => !(c == ':'))).map Char.toLower
    if host = [] then none else some ⟨host⟩
  else none

/-- Hex digit test for percent decoding. -/
def isHexChar (c : Char) : Bool :=
  c.isDigit || ('a' ≤ c && c ≤ 'f') || ('A' ≤ c && c ≤ 'F')

/-- Value of a hex digit. -/
def hexVal (c : Char) : Nat :=
  if c.isDigit then c.toNat - 48
  else if 'a' ≤ c && c ≤ 'f' then c.toNat - 87
  else c.toNat - 55

/-- Percent decoding as in `urllib.parse.unquote`, restricted to single-byte
escapes; invalid escapes are kept verbatim, as in Python. -/
def percentDecode : List Char → List Char
  | [] => []
  | '%' :: h :: lo :: rest =>
      if isHexChar h && isHexChar lo then
        Char.ofNat (16 * hexVal h + hexVal lo) :: percentDecode rest
      else '%' :: percentDecode (h :: lo :: rest)
  | c :: cs => c :: percentDecode cs

/-- Decoding `parse_qsl` applies to each name and value: `+` to space, then
percent decoding. -/
def qsDecode (l : List Char) : List Char :=
  percentDecode (l.map (fun c => if c = '+' then ' ' else c))

/-- Model of `urllib.parse.parse_qs(query)[k]`: the decoded values, in order,
of the query fields whose decoded name is `k`; fields without `=` or with an
empty value are dropped (`keep_blank_values=False`). -/
def qsValues (query : List Char) (k : String) : List String :=
  (splitAll '&' query).filterMap (fun nv =>
    if nv.isEmpty then none
    else
      match splitAtChar '=' nv with
      | none => none
      | some (nm, v) =>
          if v.isEmpty then none
          else if qsDecode nm = k.data then some ⟨qsDecode v⟩ else none)

/-- `resolve_url` from `emissions_news_scraper.py` lines 182-189: unwrap a
Google redirect URL to the target carried in its `url` query parameter. -/
def resolve_url (url : String) : String :=
  match hostnameOf url with
  | none => url
  | some host =>
      if isSubList "google".data host.data then
        match qsValues (queryOf url) "url" with
        | v :: _ => v
        | [] => url
      else url

/-- Python `s.replace(pat, rep)` scanning helper (fuel-bounded; fuel is the
input length, which suffices since every step consumes a character). -/
def replaceGo (pat rep : List Char) : Nat → List Char → List Char
  | _, [] => []
  | 0, l => l
  | fuel + 1, c :: cs =>
      if pat.isPrefixOf (c :: cs) then rep ++ replaceGo pat rep fuel (List.drop (pat.length - 1) cs)
      else c :: replaceGo pat rep fuel cs

/-- Python `s.replace(pat, rep)` for a non-empty pattern. -/
def pyReplace (s pat rep : String) : String :=
  if pat.data = [] then s else ⟨replaceGo pat.data rep.data s.data.length s.data⟩

/-- Strip every leading and trailing occurrence of `c`, like `str.strip(ch)`. -/
def stripChar (c : Char) (l : List Char) : List Char :=
  ((l.dropWhile (fun x => x == c)).reverse.dropWhile (fun x => x == c)).reverse

/-- `slugify` from the news scrapers (both files, identical): keep alphanumerics,
replace the rest by `-`, strip `-`, cut to 50 characters. -/
def slugify (text : String) : String :=
  ⟨(stripChar '-' ((pyLower text).data.map (fun c => if c.isAlphanum then c else '-'))).take 50⟩

/-- Extracted article text, as returned by the external `newspaper.Article`
collaborator. -/
structure Article where
  title : String
  text : String
deriving DecidableEq, Repr

/-- One feed entry, as produced by the external feedparser collaborator;
`feedUrl` records which configured feed produced it. -/
structure FeedEntry where
  title : String
  link : String
  feedUrl : String
deriving DecidableEq, Repr

/-- A record of the rolling news index.  New records always carry
`source_url`; older stored records may instead carry `url`, which the loader
falls back to (`item.get('source_url') or item.get('url')`). -/
structure NewsItem where
  id : Nat
  date : String
  title : String
  summary : String
  content : String
  source_url : Option String
  url : Option String
  source : String
  score : Nat
deriving DecidableEq, Repr

/-- `item.get('source_url') or item.get('url')` for a stored index record. -/
def itemUrl (it : NewsItem) : Option String :=
  if strTruthy it.source_url then it.source_url else it.url

/-- External collaborators of one scraper run: article extraction (`none`
models a download/parse exception or an unreachable page), the Gemini summary,
the wall-clock date string and the per-item id from `time.time()`. -/
structure ScrapeEnv where
  fetch : String → Option Article
  summarize : String → String → String
  today : String
  mkId : Nat → Nat

/-- In-memory state of one scraper run: the working index list, the dedup URL
set (a set of possibly-`None` strings in Python), the per-article archive
directory (filename to record, newest first) and the new-item counter. -/
structure ScrapeSt where
  news_index : List NewsItem
  existing_urls : List (Option String)
  archive : List (String × NewsItem)
  new_count : Nat
deriving Repr

/-- Content of a stored JSON file: missing, present but unparseable, or
parsed. -/
inductive FileState (α : Type) where
  | missing
  | malformed
  | good (val : α)
deriving DecidableEq, Repr

/-- Index loading in both scrapers: `json.load` inside `try`, with a bare
`except` falling back to `[]`; a missing file also yields `[]`. -/
def loadIndexFile (fs : FileState (List NewsItem)) : List NewsItem :=
  match fs with
  | .missing => []
  | .malformed => []
  | .good l => l

/-- Association-list lookup used for modelled directories and manifests. -/
def lookupA (l : List (String × α)) (k : String) : Option α := l.lookup k

/-- Write (create or overwrite) the file `k` in a modelled directory. -/
def insertA (l : List (String × α)) (k : String) (v : α) : List (String × α) :=
  (k, v) :: l.filter (fun p => !(p.1 == k))

/-- Remove the file `k` from a modelled directory. -/
def eraseA (l : List (String × α)) (k : String) : List (String × α) :=
  l.filter (fun p => !(p.1 == k))

/-- Python tuple order on the sort key `(item['date'], item['score'])`:
the key of `a` is at most the key of `b`. -/
def newsKeyLe (a b : NewsItem) : Prop :=
  a.date < b.date ∨ (a.date = b.date ∧ a.score ≤ b.score)

instance : DecidableRel newsKeyLe := fun a b => by
  unfold newsKeyLe; infer_instance

/-- Comparator realising `list.sort(key=..., reverse=True)`: `a` may come
before `b` exactly when the key of `b` is at most the key of `a`. -/
def newsGe (a b : NewsItem) : Prop := newsKeyLe b a

instance : DecidableRel newsGe := fun a b => by
  unfold newsGe newsKeyLe; infer_instance

/-- Python `list.sort(key=lambda x: (date, score), reverse=True)`: a stable
descending sort; every stable sort agrees on the result, so insertion sort
realises it. -/
def pySortDesc (l : List NewsItem) : List NewsItem := l.insertionSort newsGe

/-- Result of one scraper run: the persisted index artifact (rewritten only on
a flush), the per-article archive directory, the counter and the return
value. -/
structure ScrapeOut where
  indexFile : FileState (List NewsItem)
  archive : List (String × NewsItem)
  new_count : Nat
  ret : Bool

/-- End-of-run flush shared by both scrapers (lines 267-278 / 239-250): when at
least one item was added, re-sort by (date desc, score desc), truncate to 50
and rewrite the index artifact, returning True; otherwise leave the artifact
untouched and return False. -/
def flushOut (indexFS : FileState (List NewsItem)) (st : ScrapeSt) : ScrapeOut :=
  if st.new_count > 0 then
    { indexFile := .good ((pySortDesc st.news_index).take 50), archive := st.archive,
      new_count := st.new_count, ret := true }
  else
    { indexFile := indexFS, archive := st.archive, new_count := st.new_count, ret := false }

namespace Emissions

/-- `KEYWORDS` from `emissions_news_scraper.py`. -/
def KEYWORDS : List String :=
  ["EU-ETS", "CO2", "greenhouse gas", "emissions", "fueleu", "MRV", "CII", "EEDI",
   "decarbonization", "decarbonisation"]

/-- `SCORE_WEIGHTS` from `emissions_news_scraper.py`, in insertion order. -/
def SCORE_WEIGHTS : List (String × Nat) :=
  [("EU-ETS", 15), ("ETS", 10), ("fueleu", 15), ("MRV", 12), ("IMO", 10), ("CII", 12),
   ("EEDI", 12), ("EEXI", 12),
   ("CO2", 5), ("emissions", 5), ("greenhouse gas", 8), ("carbon", 5),
   ("decarbonization", 10), ("decarbonisation", 10), ("net-zero", 10), ("net zero", 10),
   ("methanol", 12), ("ammonia", 12), ("hydrogen", 10), ("LNG", 8), ("biofuel", 8),
   ("shipping", 3), ("maritime", 3), ("vessel", 2), ("ship", 2), ("fleet", 3),
   ("Maersk", 5), ("MSC", 5), ("CMA CGM", 5), ("EMSA", 8),
   ("_title_multiplier", 2)]

/-- Body of the per-entry loop of `scrape_and_update` (emissions scraper,
lines 212-265): keyword filter on the entry title, redirect resolution, dedup
against both URL forms, article extraction, emptiness and score gates, then
archive write and index/dedup-set/counter update.  Any exception inside the
`try` block (download, parse, a hostname of `None`) skips the item. -/
def procEntry (env : ScrapeEnv) (st : ScrapeSt) (entry : FeedEntry) : ScrapeSt :=
  if KEYWORDS.any (fun key => pyContains (pyLower entry.title) (pyLower key)) then
    let real_url := resolve_url entry.link
    if !(st.existing_urls.contains (some real_url))
        && !(st.existing_urls.contains (some entry.link)) then
      match env.fetch real_url with
      | none => st
      | some article =>
          if article.title == "" || article.text == "" || article.text.length < 100 then st
          else
            let score := calculate_score SCORE_WEIGHTS (some article.title) (some article.text)
            if score < 10 then st
            else
              match hostnameOf real_url with
              | none => st
              | some host =>
                  let news_item : NewsItem :=
                    { id := env.mkId st.new_count, date := env.today, title := article.title,
                      summary := env.summarize article.title article.text,
                      content := article.text, source_url := some real_url, url := none,
                      source := pyReplace host "www." "", score := score }
                  { news_index := news_item :: st.news_index,
                    existing_urls := some real_url :: st.existing_urls,
                    archive := (slugify article.title ++ ".json", news_item) :: st.archive,
                    new_count := st.new_count + 1 }
    else st
  else st

/-- State after the entry loop of one emissions scraper run. -/
def finalSt (env : ScrapeEnv) (indexFS : FileState (List NewsItem))
    (archive0 : List (String × NewsItem)) (entries : List FeedEntry) : ScrapeSt :=
  let news_index := loadIndexFile indexFS
  entries.foldl (procEntry env)
    { news_index := news_index, existing_urls := news_index.map itemUrl,
      archive := archive0, new_count := 0 }

/-- `scrape_and_update` from `emissions_news_scraper.py` lines 195-278. -/
def scrape_and_update (env : ScrapeEnv) (indexFS : FileState (List NewsItem))
    (archive0 : List (String × NewsItem)) (entries : List FeedEntry) : ScrapeOut :=
  flushOut indexFS (finalSt env indexFS archive0 entries)

/-- Script entry point (lines 320-322): `push_to_github()` runs exactly when
`scrape_and_update()` returned True. -/
def mainPushes (env : ScrapeEnv) (indexFS : FileState (List NewsItem))
    (archive0 : List (String × NewsItem)) (entries : List FeedEntry) : Bool :=
  (scrape_and_update env indexFS archive0 entries).ret

end Emissions

namespace Hydrogen

/-- `KEYWORDS` from `hydrogen_news_scraper.py`. -/
def KEYWORDS : List String :=
  ["hydrogen", "lh2", "fuel cell", "h2", "green ammonia", "electrolyzer", "fuelcell"]

/-- `SCORE_WEIGHTS` from `hydrogen_news_scraper.py`, in insertion order. -/
def SCORE_WEIGHTS : List (String × Nat) :=
  [("hydrogen", 15), ("lh2", 20), ("liquid hydrogen", 20), ("fuel cell", 18),
   ("fuelcell", 18), ("h2", 10), ("electrolyzer", 15), ("electrolysis", 12),
   ("green hydrogen", 18),
   ("ammonia", 12), ("green ammonia", 15), ("methanol", 8), ("e-fuel", 12),
   ("e-methanol", 12),
   ("propulsion", 8), ("zero-emission", 12), ("zero emission", 12), ("carbon-free", 10),
   ("decarbonization", 10), ("decarbonisation", 10),
   ("vessel", 3), ("ship", 3), ("maritime", 5), ("shipping", 3), ("newbuild", 5),
   ("carrier", 5),
   ("CMB", 8), ("Kawasaki", 8), ("HyShip", 10), ("Norled", 8),
   ("_title_multiplier", 2)]

/-- Body of the per-entry loop of `scrape_and_update` (hydrogen scraper,
lines 185-237).  Unlike the emissions scraper there is no redirect
resolution: the raw `entry.link` is compared against the dedup set, fetched,
and stored as `source_url`; the source label comes from the feed URL. -/
def procEntry (env : ScrapeEnv) (st : ScrapeSt) (entry : FeedEntry) : ScrapeSt :=
  if KEYWORDS.any (fun key => pyContains (pyLower entry.title) (pyLower key)) then
    if !(st.existing_urls.contains (some entry.link)) then
      match env.fetch entry.link with
      | none => st
      | some article =>
          if article.title == "" || article.text == "" || article.text.length < 100 then st
          else
            let score := calculate_score SCORE_WEIGHTS (some article.title) (some article.text)
            if score < 10 then st
            else
              match (splitAll '/' entry.feedUrl.data).get? 2 with
              | none => st
              | some seg =>
                  let news_item : NewsItem :=
                    { id := env.mkId st.new_count, date := env.today, title := article.title,
                      summary := env.summarize article.title article.text,
                      content := article.text, source_url := some entry.link, url := none,
                      source := pyReplace ⟨seg⟩ "www." "", score := score }
                  { news_index := news_item :: st.news_index,
                    existing_urls := some entry.link :: st.existing_urls,
                    archive := (slugify article.title ++ ".json", news_item) :: st.archive,
                    new_count := st.new_count + 1 }
    else st
  else st

/-- State after the entry loop of one hydrogen scraper run. -/
def finalSt (env : ScrapeEnv) (indexFS : FileState (List NewsItem))
    (archive0 : List (String × NewsItem)) (entries : List FeedEntry) : ScrapeSt :=
  let news_index := loadIndexFile indexFS
  entries.foldl (procEntry env)
    { news_index := news_index, existing_urls := news_index.map itemUrl,
      archive := archive0, new_count := 0 }

/-- `scrape_and_update` from `hydrogen_news_scraper.py` lines 168-250. -/
def scrape_and_update (env : ScrapeEnv) (indexFS : FileState (List NewsItem))
    (archive0 : List (String × NewsItem)) (entries : List FeedEntry) : ScrapeOut :=
  flushOut indexFS (finalSt env indexFS archive0 entries)

/-- Script entry point: `push_to_github()` runs exactly when
`scrape_and_update()` returned True. -/
def mainPushes (env : ScrapeEnv) (indexFS : FileState (List NewsItem))
    (archive0 : List (String × NewsItem)) (entries : List FeedEntry) : Bool :=
  (scrape_and_update env indexFS archive0 entries).ret

end Hydrogen

namespace Sched

/-- A local timestamp at minute precision, as built by
`datetime.strptime(s, "%Y-%m-%d %H:%M")` (seconds and microseconds zero). -/
structure DateTime where
  year : Nat
  month : Nat
  day : Nat
  hour : Nat
  minute : Nat
deriving DecidableEq, Repr

/-- Python `datetime` comparison (field-lexicographic) restricted to minute
precision: `a <= b`. -/
def dtLe (a b : DateTime) : Bool :=
  if a.year ≠ b.year then decide (a.year < b.year)
  else if a.month ≠ b.month then decide (a.month < b.month)
  else if a.day ≠ b.day then decide (a.day < b.day)
  else if a.hour ≠ b.hour then decide (a.hour < b.hour)
  else decide (a.minute ≤ b.minute)

/-- Gregorian leap-year test, as in `datetime`. -/
def isLeap (y : Nat) : Bool := (y % 4 == 0 && y % 100 != 0) || y % 400 == 0

/-- Days in a month, as validated by the `datetime` constructor. -/
def daysInMonth (y m : Nat) : Nat :=
  if m = 2 then (if isLeap y then 29 else 28)
  else if m = 4 ∨ m = 6 ∨ m = 9 ∨ m = 11 then 30
  else 31

/-- Take greedily up to `maxN` leading decimal digits, returning them and the
rest of the input. -/
def splitDigits : Nat → List Char → List Char × List Char
  | 0, l => ([], l)
  | _ + 1, [] => ([], [])
  | m + 1, c :: cs =>
      if c.isDigit then
        let p := splitDigits m cs
        (c :: p.1, p.2)
      else ([], c :: cs)

/-- Decimal value of a digit list. -/
def digitsVal (l : List Char) : Nat := l.foldl (fun a c => 10 * a + (c.toNat - 48)) 0

/-- Model of `datetime.strptime(s, "%Y-%m-%d %H:%M")`: exactly four digits of
year, one or two greedy digits for month/day/hour/minute with literal
separators, no trailing text, then the range checks performed by the strptime
regex together with the `datetime` constructor (month 1-12, day within the
month, hour 0-23, minute 0-59, year at least 1).  A failure is Python's
`ValueError`. -/
def parseSched (s : String) : Option DateTime :=
  let py := splitDigits 4 s.data
  if py.1.length ≠ 4 then none else
  match py.2 with
  | '-' :: r2 =>
      let pm := splitDigits 2 r2
      if pm.1.isEmpty then none else
      match pm.2 with
      | '-' :: r4 =>
          let pd := splitDigits 2 r4
          if pd.1.isEmpty then none else
          match pd.2 with
          | ' ' :: r6 =>
              let ph := splitDigits 2 r6
              if ph.1.isEmpty then none else
              match ph.2 with
              | ':' :: r8 =>
                  let pmin := splitDigits 2 r8
                  if pmin.1.isEmpty then none else
                  if pmin.2 ≠ [] then none else
                  let yv := digitsVal py.1
                  let mov := digitsVal pm.1
                  let dv := digitsVal pd.1
                  let hv := digitsVal ph.1
                  let miv := digitsVal pmin.1
                  if 1 ≤ yv ∧ 1 ≤ mov ∧ mov ≤ 12 ∧ 1 ≤ dv ∧ dv ≤ daysInMonth yv mov ∧
                      hv ≤ 23 ∧ miv ≤ 59 then
                    some ⟨yv, mov, dv, hv, miv⟩
                  else none
              | _ => none
          | _ => none
      | _ => none
  | _ => none

/-- One record of `json/blog_drafts.json` (`posts` entry), with the fields
`update_drafts_json` writes; `excerpt`/`author` are read back with `.get`, so
they are optional here. -/
structure DraftMeta where
  slug : String
  title : String
  date : String
  excerpt : Option String
  author : Option String
  source_url : Option String
  source_name : String
  score : Nat
  featured_image : Option String
  scheduled : Option String
  created : String
deriving DecidableEq, Repr

/-- One record of `json/blog.json` (`posts` entry) as built by `publish()`. -/
structure PubEntry where
  slug : String
  title : String
  date : String
  excerpt : String
  author : String
  featured_image : Option String
  source_url : Option String
deriving DecidableEq, Repr

/-- The file-system and manifest state the publication tick manipulates:
`blog/posts/drafts/` and `blog/posts/` as slug-keyed directories (the `.md`
suffix is implicit), plus the parsed `posts` lists of `json/blog.json` and
`json/blog_drafts.json`. -/
structure PubState where
  draftsArea : List (String × String)
  postsArea : List (String × String)
  blogPosts : List PubEntry
  draftPosts : List DraftMeta
deriving DecidableEq, Repr

/-- The trimmed metadata record `publish()` inserts into `json/blog.json`:
optional fields are included only when truthy. -/
def mkEntry (meta : DraftMeta) : PubEntry :=
  { slug := meta.slug, title := meta.title, date := meta.date,
    excerpt := meta.excerpt.getD "", author := meta.author.getD "DirtiestShips",
    featured_image := if strTruthy meta.featured_image then meta.featured_image else none,
    source_url := if strTruthy meta.source_url then meta.source_url else none }

/-- `publish()` from `check_scheduled_emissions.py` lines 37-73: skip when the
drafts-area content file is absent; otherwise copy the content to the posts
area, delete the drafts-area file, insert the trimmed record at the head of
`blog.json` and drop every record with this slug from `blog_drafts.json`. -/
def publish (meta : DraftMeta) (s : PubState) : PubState × Bool :=
  match lookupA s.draftsArea meta.slug with
  | none => (s, false)
  | some content =>
      ({ draftsArea := eraseA s.draftsArea meta.slug,
         postsArea := insertA s.postsArea meta.slug content,
         blogPosts := mkEntry meta :: s.blogPosts,
         draftPosts := s.draftPosts.filter (fun p => !(p.slug == meta.slug)) }, true)

/-- The due test of `main()` lines 110-118: a falsy `scheduled` is skipped, an
unparseable one is skipped (`ValueError` caught), and a parsed one is due when
`now >= scheduled_dt`. -/
def isDueB (now : DateTime) (meta : DraftMeta) : Bool :=
  match meta.scheduled with
  | none => false
  | some sch =>
      if sch == "" then false
      else
        match parseSched sch with
        | none => false
        | some dt => dtLe dt now

/-- The loop of `main()` over the initially loaded draft list (the list is
snapshotted by `list(...)`, while `publish` re-reads the stored manifests). -/
def tickAux (now : DateTime) : List DraftMeta → PubState → PubState
  | [], s => s
  | meta :: rest, s =>
      if isDueB now meta then tickAux now rest (publish meta s).1
      else tickAux now rest s

/-- One cron tick: `main()` of `check_scheduled_emissions.py` lines 104-125. -/
def tick (now : DateTime) (s : PubState) : PubState := tickAux now s.draftPosts s

/-- `load_json` from `check_scheduled_emissions.py` lines 25-29: the default is
returned only when the file does not exist; `json.load` on malformed content
raises (there is no `try`/`except`), modelled as `Except.error`. -/
def load_json (fs : FileState α) (default : α) : Except Unit α :=
  match fs with
  | .missing => .ok default
  | .malformed => .error ()
  | .good a => .ok a

end Sched

namespace BlogGen

/-- ASCII model of the regex class `\w` (Python `re` with str defaults to
Unicode word characters; the slugs in this system are ASCII). -/
def isWordChar (c : Char) : Bool := c.isAlphanum || c = '_'

/-- ASCII model of the regex class `\s`. -/
def isSpaceChar (c : Char) : Bool :=
  c = ' ' || c = '\t' || c = '\n' || c = '\r' || c = '\x0b' || c = '\x0c'

/-- The class `[\s_-]` collapsed by `slugify`. -/
def isSepChar (c : Char) : Bool := isSpaceChar c || c = '_' || c = '-'

/-- Replace every maximal run of `[\s_-]` characters by a single `-`, as
`re.sub(r"[\s_-]+", "-", text)` does. -/
def collapseGo (inRun : Bool) : List Char → List Char
  | [] => []
  | c :: cs =>
      if isSepChar c then
        (if inRun then collapseGo true cs else '-' :: collapseGo true cs)
      else c :: collapseGo false cs

/-- Strip trailing occurrences of `c`, like `str.rstrip(ch)`. -/
def rstripChar (c : Char) (l : List Char) : List Char :=
  (l.reverse.dropWhile (fun x => x == c)).reverse

/-- `slugify` from `emissions_blog_generator.py` lines 78-84: lower-case, drop
characters outside `[\w\s-]`, collapse `[\s_-]+` runs to `-`, strip `-`, cut
to 60 characters, strip trailing `-` again. -/
def slugify (text : String) : String :=
  let t1 := (pyLower text).data
  let t2 := t1.filter (fun c => isWordChar c || isSpaceChar c || c = '-')
  let t3 := collapseGo false t2
  let t4 := stripChar '-' t3
  ⟨rstripChar '-' (t4.take 60)⟩

/-- Decimal digit character. -/
def digitChar : Nat → Char
  | 0 => '0'
  | 1 => '1'
  | 2 => '2'
  | 3 => '3'
  | 4 => '4'
  | 5 => '5'
  | 6 => '6'
  | 7 => '7'
  | 8 => '8'
  | 9 => '9'
  | _ => '*'

/-- Fuel-bounded big-endian decimal digits of `n` (fuel `n + 1` always
suffices). -/
def natToStrGo : Nat → Nat → List Char
  | 0, _ => []
  | fuel + 1, n =>
      if n < 10 then [digitChar n]
      else natToStrGo fuel (n / 10) ++ [digitChar (n % 10)]

/-- Python `str(n)` for a natural number. -/
def natToStr (n : Nat) : String := ⟨natToStrGo (n + 1) n⟩

/-- The collision candidate `f"{base_slug[:57]}-{n}"`. -/
def candSlug (base : String) (n : Nat) : String := base.take 57 ++ "-" ++ natToStr n

/-- Largest length of a string in the list (0 for the empty list). -/
def maxLenL (l : List String) : Nat := l.foldr (fun s m => max s.length m) 0

theorem mem_le_maxLenL {s : String} : ∀ {l : List String}, s ∈ l → s.length ≤ maxLenL l := by
  intro l
  induction l with
  | nil => intro h; cases h
  | cons a t ih =>
      intro h
      simp only [maxLenL, List.foldr_cons]
      rcases List.mem_cons.mp h with h1 | h1
      · subst h1; exact Nat.le_max_left _ _
      · exact Nat.le_trans (ih h1) (Nat.le_max_right _ _)

theorem natToStrGo_len_lb : ∀ (fuel n m : Nat), 10 ^ m ≤ n → n < 10 ^ fuel →
    m + 1 ≤ (natToStrGo fuel n).length := by
  intro fuel
  induction fuel with
  | zero =>
      intro n m h1 h2
      have h3 : 0 < 10 ^ m := Nat.pos_pow_of_pos m (by norm_num)
      simp [pow_zero] at h2
      omega
  | succ fuel ih =>
      intro n m h1 h2
      by_cases hn : n < 10
      · have hm : m = 0 := by
          by_contra hm
          have h3 : (10 : Nat) ≤ 10 ^ m := by
            calc (10 : Nat) = 10 ^ 1 := by norm_num
            _ ≤ 10 ^ m := Nat.pow_le_pow_right (by norm_num) (by omega)
          omega
        subst hm
        simp [natToStrGo, hn]
      · have hd : 10 ^ (m - 1) ≤ n / 10 := by
          rcases Nat.eq_zero_or_pos m with hm | hm
          · subst hm
            simp
            omega
          · rw [Nat.le_div_iff_mul_le (by norm_num)]
            calc 10 ^ (m - 1) * 10 = 10 ^ (m - 1 + 1) := by ring
            _ ≤ n := by
                have : m - 1 + 1 = m := by omega
                rw [this]; exact h1
        have hlt : n / 10 < 10 ^ fuel := by
          rw [Nat.div_lt_iff_lt_mul (by norm_num)]
          calc n < 10 ^ (fuel + 1) := h2
          _ = 10 ^ fuel * 10 := by ring
        have h4 := ih (n / 10) (m - 1) hd hlt
        rcases Nat.eq_zero_or_pos m with hm | hm
        · subst hm
          simp [natToStrGo, hn, List.length_append]
        · simp only [natToStrGo, if_neg hn, List.length_append, List.length_cons,
            List.length_nil]
          omega

theorem natToStr_len_lb (n m : Nat) (h : 10 ^ m ≤ n) : m + 1 ≤ (natToStr n).length := by
  have h2 : n < 10 ^ (n + 1) := by
    calc n < 10 ^ n := Nat.lt_pow_self (by norm_num) n
    _ ≤ 10 ^ (n + 1) := Nat.pow_le_pow_right (by norm_num) (Nat.le_succ n)
  exact natToStrGo_len_lb (n + 1) n m h h2

theorem candSlug_length (base : String) (n : Nat) :
    (candSlug base n).length = (base.take 57).length + 1 + (natToStr n).length := by
  simp [candSlug, String.length_append]
  decide

/-- The `while slug in existing` loop of `make_unique_slug`, entered with
counter `n`: try `base[:57]-n`, `base[:57]-(n+1)`, ... until a candidate is
free.  It terminates because candidates eventually get longer than every
member of `existing`. -/
def muLoop (base : String) (existing : List String) (n : Nat) : String :=
  if h : candSlug base n ∈ existing then muLoop base existing (n + 1)
  else candSlug base n
termination_by 10 ^ (maxLenL existing + 1) + 1 - n
decreasing_by
  have h1 : (candSlug base n).length ≤ maxLenL existing := mem_le_maxLenL h
  have h2 : n < 10 ^ (maxLenL existing + 1) := by
    by_contra h3
    push_neg at h3
    have h4 := natToStr_len_lb n (maxLenL existing + 1) h3
    have h5 := candSlug_length base n
    omega
  omega

/-- `make_unique_slug` from `emissions_blog_generator.py` lines 196-202. -/
def make_unique_slug (base : String) (existing : List String) : String :=
  if base ∈ existing then muLoop base existing 2 else base

theorem muLoop_spec (base : String) (existing : List String) :
    ∀ (k n : Nat), 10 ^ (maxLenL existing + 1) + 1 - n ≤ k →
      muLoop base existing n ∉ existing ∧
      ∃ m, n ≤ m ∧ muLoop base existing n = candSlug base m := by
  intro k
  induction k with
  | zero =>
      intro n hk
      have hfree : candSlug base n ∉ existing := by
        intro hmem
        have h1 := mem_le_maxLenL hmem
        have h4 : maxLenL existing + 1 + 1 ≤ (natToStr n).length :=
          natToStr_len_lb n (maxLenL existing + 1) (by omega)
        have h5 := candSlug_length base n
        omega
      rw [muLoop, dif_neg hfree]
      exact ⟨hfree, n, Nat.le_refl n, rfl⟩
  | succ k ih =>
      intro n hk
      by_cases hmem : candSlug base n ∈ existing
      · rw [muLoop, dif_pos hmem]
        obtain ⟨hnot, m, hm, heq⟩ := ih (n + 1) (by omega)
        exact ⟨hnot, m, by omega, heq⟩
      · rw [muLoop, dif_neg hmem]
        exact ⟨hmem, n, Nat.le_refl n, rfl⟩

theorem make_unique_slug_not_mem (base : String) (existing : List String) :
    make_unique_slug base existing ∉ existing := by
  unfold make_unique_slug
  by_cases h : base ∈ existing
  · rw [if_pos h]
    exact (muLoop_spec base existing _ 2 (Nat.le_refl _)).1
  · rw [if_neg h]
    exact h

theorem make_unique_slug_form (base : String) (existing : List String) :
    make_unique_slug base existing = base ∨
      ∃ m, 2 ≤ m ∧ make_unique_slug base existing = candSlug base m := by
  unfold make_unique_slug
  by_cases h : base ∈ existing
  · rw [if_pos h]
    obtain ⟨-, m, hm, heq⟩ := muLoop_spec base existing _ 2 (Nat.le_refl _)
    exact Or.inr ⟨m, hm, heq⟩
  · rw [if_neg h]
    exact Or.inl rfl

end BlogGen

instance : IsTotal NewsItem newsGe := by
  constructor
  intro a b
  unfold newsGe newsKeyLe
  rcases lt_trichotomy a.date b.date with h | h | h
  · exact Or.inr (Or.inl h)
  · rcases Nat.le_total b.score a.score with h2 | h2
    · exact Or.inl (Or.inr ⟨h.symm, h2⟩)
    · exact Or.inr (Or.inr ⟨h, h2⟩)
  · exact Or.inl (Or.inl h)

instance : IsTrans NewsItem newsGe := by
  constructor
  intro a b c hab hbc
  unfold newsGe newsKeyLe at hab hbc ⊢
  rcases hab with h1 | ⟨h1, h1s⟩
  · rcases hbc with h2 | ⟨h2, h2s⟩
    · exact Or.inl (lt_trans h2 h1)
    · exact Or.inl (h2 ▸ h1)
  · rcases hbc with h2 | ⟨h2, h2s⟩
    · exact Or.inl (h1 ▸ h2)
    · exact Or.inr ⟨h2.trans h1, Nat.le_trans h2s h1s⟩

/-- The rolling index is sorted by (date desc, score desc): each entry's key
dominates the keys of all later entries. -/
def SortedIdx (l : List NewsItem) : Prop := List.Pairwise newsGe l

/-- The rolling-index invariant on a persisted artifact: whenever it holds a
parsed list, that list has at most 50 records and is sorted descending. -/
def invFile (fs : FileState (List NewsItem)) : Prop :=
  ∀ l, fs = FileState.good l → l.length ≤ 50 ∧ SortedIdx l

/-- Union of the source URLs recorded in the rolling index, the draft manifest
and the published manifest (the dedup domain named by the specification). -/
def unionUrls (idx : List NewsItem) (dm : List Sched.DraftMeta)
    (pm : List Sched.PubEntry) : List (Option String) :=
  idx.map itemUrl ++ dm.map (fun p => p.source_url) ++ pm.map (fun p => p.source_url)

/-- Claim C3 as stated: a URL anywhere in the union of index, draft manifest
and published manifest is never re-archived by a scraper run that re-ingests
it (in wrapped or canonical form): the archive gains no record and the
persisted index does not grow.  (A scraper run touches no draft manifest at
all, so "no new draft" holds trivially and is not restated here.) -/
def c3ClaimHolds (env : ScrapeEnv) (fs : FileState (List NewsItem))
    (ar : List (String × NewsItem)) (dm : List Sched.DraftMeta)
    (pm : List Sched.PubEntry) (e : FeedEntry) (u : String) : Prop :=
  some u ∈ unionUrls (loadIndexFile fs) dm pm →
  (resolve_url e.link = u ∨ e.link = u) →
  (∀ k, lookupA (Emissions.scrape_and_update env fs ar [e]).archive k = lookupA ar k) ∧
  (loadIndexFile (Emissions.scrape_and_update env fs ar [e]).indexFile).length ≤
    (loadIndexFile fs).length

/-- Claim C7 as stated: in both scrapers an entry is skipped (the run state is
unchanged) whenever the wrapped or the unwrapped form of its link is already
known. -/
def c7ClaimHolds : Prop :=
  ∀ (env : ScrapeEnv) (st : ScrapeSt) (e : FeedEntry),
    (some (resolve_url e.link) ∈ st.existing_urls ∨ some e.link ∈ st.existing_urls) →
    Emissions.procEntry env st e = st ∧ Hydrogen.procEntry env st e = st

/-- Claim C6 as stated, for a base slug and a set of existing slugs: the
produced slug is fresh, at most 60 characters, differs from a colliding base
only by a `-n` suffix, and a second draft from the same base gets a different
slug. -/
def c6ClaimHolds (base : String) (existing : List String) : Prop :=
  BlogGen.make_unique_slug base existing ∉ existing ∧
  (BlogGen.make_unique_slug base existing).length ≤ 60 ∧
  (base ∈ existing → ∃ n, 2 ≤ n ∧
    BlogGen.make_unique_slug base existing = base ++ "-" ++ BlogGen.natToStr n) ∧
  BlogGen.make_unique_slug base (BlogGen.make_unique_slug base existing :: existing) ≠
    BlogGen.make_unique_slug base existing

/-- A trivial scraper environment for concrete runs: fetching always fails. -/
def envTriv : ScrapeEnv :=
  { fetch := fun _ => none, summarize := fun _ _ => "", today := "2026-01-01",
    mkId := fun _ => 0 }

/-- Environment whose extractor returns a fixed high-scoring emissions
article. -/
def envC3 : ScrapeEnv :=
  { fetch := fun _ => some
      { title := "CO2 emissions report",
        text := "emissions emissions emissions emissions emissions emissions emissions emissions emissions emissions x" },
    summarize := fun _ _ => "S", today := "2026-01-01", mkId := fun _ => 7 }

/-- A draft-manifest record holding the canonical URL used by the C3 run. -/
def draftC3 : Sched.DraftMeta :=
  { slug := "co2-post", title := "CO2 post", date := "2025-12-01", excerpt := some "e",
    author := none, source_url := some "https://example.com/a", source_name := "example.com",
    score := 80, featured_image := none, scheduled := none, created := "2025-12-01 08:00" }

/-- A feed entry re-ingesting that canonical URL. -/
def entryC3 : FeedEntry :=
  { title := "CO2 emissions report", link := "https://example.com/a",
    feedUrl := "https://feeds.example.com/rss" }

/-- Environment whose extractor returns a fixed high-scoring hydrogen
article. -/
def envC7 : ScrapeEnv :=
  { fetch := fun _ => some
      { title := "Hydrogen vessel order",
        text := "hydrogen hydrogen hydrogen hydrogen hydrogen hydrogen hydrogen hydrogen hydrogen hydrogen hydrogen hydrogen" },
    summarize := fun _ _ => "S", today := "2026-01-01", mkId := fun _ => 9 }

/-- Run state that already knows the canonical (unwrapped) URL. -/
def stC7 : ScrapeSt :=
  { news_index := [], existing_urls := [some "https://example.com/a"], archive := [],
    new_count := 0 }

/-- A feed entry carrying the Google-wrapped form of that URL. -/
def entryC7 : FeedEntry :=
  { title := "Hydrogen vessel order",
    link := "https://www.google.nl/url?url=https://example.com/a",
    feedUrl := "https://feeds.example.com/rss" }

/-- A scheduled draft record, due at the witness tick time. -/
def metaW : Sched.DraftMeta :=
  { slug := "post-1", title := "T", date := "2025-01-01", excerpt := some "E",
    author := none, source_url := some "https://example.com/x", source_name := "example.com",
    score := 80, featured_image := none, scheduled := some "2025-01-01 09:00",
    created := "2024-12-31 12:00" }

/-- State holding that single scheduled draft with its content file. -/
def stateW : Sched.PubState :=
  { draftsArea := [("post-1", "BODY")], postsArea := [], blogPosts := [],
    draftPosts := [metaW] }

/-- Draft with no scheduled field. -/
def metaNull : Sched.DraftMeta :=
  { slug := "n1", title := "A", date := "2025-01-01", excerpt := none, author := none,
    source_url := none, source_name := "", score := 0, featured_image := none,
    scheduled := none, created := "2025-01-01 00:00" }

/-- Draft whose scheduled field is the falsy empty string. -/
def metaEmpty : Sched.DraftMeta :=
  { metaNull with slug := "n2", scheduled := some "" }

/-- Draft whose scheduled field does not parse. -/
def metaBad : Sched.DraftMeta :=
  { metaNull with slug := "n3", scheduled := some "soon" }

/-- Draft scheduled strictly in the future relative to the witness tick. -/
def metaFuture : Sched.DraftMeta :=
  { metaNull with slug := "n4", scheduled := some "2099-01-01 00:00" }

/-- Draft that is due but whose drafts-area content file is missing. -/
def metaMissing : Sched.DraftMeta :=
  { metaNull with slug := "n5", scheduled := some "2020-01-01 00:00" }

/-- State whose drafts are all unpublishable: null, empty, unparseable or
future schedules, or a due draft without its content file. -/
def stateC2 : Sched.PubState :=
  { draftsArea := [], postsArea := [("other", "X")], blogPosts := [],
    draftPosts := [metaNull, metaEmpty, metaBad, metaFuture, metaMissing] }

/-- The empty publication state. -/
def emptyPub : Sched.PubState :=
  { draftsArea := [], postsArea := [], blogPosts := [], draftPosts := [] }

/-- A 60-character base slug (its own slugification). -/
def baseA : String := "aaaaaaaaaaaaaaaaaaaaaaaaaaaaaaaaaaaaaaaaaaaaaaaaaaaaaaaaaaaa"

theorem isSubList_nil_left (l : List Char) : isSubList [] l = true := by
  cases l <;> simp [isSubList, List.isEmpty, List.isPrefixOf]

theorem isSubList_append_right (p t r : List Char) (h : isSubList p t = true) :
    isSubList p (t ++ r) = true := by
  induction t with
  | nil =>
      simp only [isSubList, List.isEmpty_iff] at h
      subst h
      exact isSubList_nil_left r
  | cons c cs ih =>
      simp only [isSubList, Bool.or_eq_true, List.cons_append] at h ⊢
      rcases h with h | h
      · left
        rw [List.isPrefixOf_iff_prefix] at h ⊢
        exact h.trans (List.prefix_append (c :: cs) r)
      · right
        exact ih h

theorem countGo_pos (p : List Char) :
    ∀ (l : List Char) (fuel : Nat), l.length ≤ fuel → isSubList p l = true → p ≠ [] →
      0 < countGo p fuel l := by
  intro l
  induction l with
  | nil =>
      intro fuel _ h hp
      simp only [isSubList, List.isEmpty_iff] at h
      exact absurd h hp
  | cons c cs ih =>
      intro fuel hf h hp
      cases fuel with
      | zero => simp at hf
      | succ fuel =>
          simp only [countGo]
          by_cases hpre : p.isPrefixOf (c :: cs)
          · rw [if_pos hpre]
            omega
          · rw [if_neg hpre]
            simp only [isSubList, Bool.or_eq_true] at h
            rcases h with h | h
            · exact absurd h hpre
            · have hcs : cs.length ≤ fuel := by
                simp only [List.length_cons] at hf
                omega
              exact ih fuel hcs h hp

theorem pyCount_pos_of_title (tl rest kl : String) (h : pyContains tl kl = true) :
    0 < pyCount (tl ++ rest) kl := by
  unfold pyContains at h
  unfold pyCount countOccs
  by_cases hp : kl.data = []
  · rw [if_pos hp]
    omega
  · rw [if_neg hp]
    have hsub : isSubList kl.data (tl ++ rest).data = true := by
      rw [String.data_append]
      exact isSubList_append_right _ _ _ h
    exact countGo_pos _ _ _ (Nat.le_refl _) hsub hp


theorem scoreFold (W : List (String × Nat)) (tl ft : String)
    (hpref : ∀ kl : String, pyContains tl kl = true → 0 < pyCount ft kl) :
    ∀ (l : List (String × Nat)) (acc : Nat),
      l.foldl (fun score kw =>
        if pyStartsWith kw.1 "_" then score
        else
          let keyword_lower := pyLower kw.1
          let count := pyCount ft keyword_lower
          if count > 0 then
            let score1 := score + kw.2 * min count 3
            if pyContains tl keyword_lower then
              score1 + kw.2 * tableGet W "_title_multiplier" 2
            else score1
          else score) acc
      = acc + ((l.filter (fun kw => !pyStartsWith kw.1 "_")).map (scoreTerm W tl ft)).sum := by
  intro l
  induction l with
  | nil => intro acc; simp
  | cons kw rest ih =>
      intro acc
      simp only [List.foldl_cons, List.filter_cons]
      by_cases hs : pyStartsWith kw.1 "_"
      · simp only [hs, if_true, Bool.not_true, Bool.false_eq_true, if_false]
        exact ih acc
      · simp only [hs, Bool.false_eq_true, if_false, Bool.not_false, if_true, List.map_cons,
          List.sum_cons]
        by_cases hc : pyCount ft (pyLower kw.1) > 0
        · rw [if_pos hc]
          by_cases ht : pyContains tl (pyLower kw.1)
          · rw [if_pos ht, ih]
            simp only [scoreTerm, ht, if_true]
            ring
          · rw [if_neg ht, ih]
            simp only [scoreTerm, if_neg ht]
            ring
        · have hc0 : pyCount ft (pyLower kw.1) = 0 := by omega
          have ht : ¬ (pyContains tl (pyLower kw.1) = true) := by
            intro hx
            have := hpref (pyLower kw.1) hx
            omega
          rw [if_neg hc, ih]
          simp only [scoreTerm, hc0, if_neg ht]
          simp

/-- C5: for every title, body and weight table, `calculate_score` equals the
sum over non-underscore keywords of `weight * min(count, 3)` plus the flat
title bonus `weight * title_multiplier` for keywords occurring in the
lower-cased title (the capped count is taken over the lower-cased
title-plus-body concatenation), and the result is a non-negative integer; as
a pure function it is deterministic for fixed inputs. -/
theorem C5_score_formula (weights : List (String × Nat)) (title content : Option String) :
    calculate_score weights title content = scoreSpec weights title content ∧
    0 ≤ calculate_score weights title content := by
  refine ⟨?_, Nat.zero_le _⟩
  unfold calculate_score scoreSpec
  have h := scoreFold weights (pyLower (pyOrEmpty title))
      (pyLower (pyOrEmpty title) ++ " " ++ pyLower (pyOrEmpty content))
      (fun kl hk => by
        rw [String.append_assoc]
        exact pyCount_pos_of_title _ _ _ hk)
      weights 0
  simpa using h

/-- C10: `calculate_score` treats a `None` title or content exactly as the
empty string, so it is total on its public interface and never raises. -/
theorem C10_score_none_like_empty (w : List (String × Nat)) (t b : Option String) :
    calculate_score w none b = calculate_score w (some "") b ∧
    calculate_score w t none = calculate_score w t (some "") :=
  ⟨rfl, rfl⟩

/-- C9: a scraper run that archives zero new items leaves the rolling-index
artifact untouched, returns False, and therefore triggers no git push. -/
theorem C9_zero_new_items_noop (envE envH : ScrapeEnv)
    (fsE fsH : FileState (List NewsItem)) (arE arH : List (String × NewsItem))
    (entE entH : List FeedEntry)
    (hE : (Emissions.finalSt envE fsE arE entE).new_count = 0)
    (hH : (Hydrogen.finalSt envH fsH arH entH).new_count = 0) :
    (Emissions.scrape_and_update envE fsE arE entE).indexFile = fsE ∧
    (Emissions.scrape_and_update envE fsE arE entE).ret = false ∧
    Emissions.mainPushes envE fsE arE entE = false ∧
    (Hydrogen.scrape_and_update envH fsH arH entH).indexFile = fsH ∧
    (Hydrogen.scrape_and_update envH fsH arH entH).ret = false ∧
    Hydrogen.mainPushes envH fsH arH entH = false := by
  unfold Emissions.mainPushes Hydrogen.mainPushes Emissions.scrape_and_update
    Hydrogen.scrape_and_update flushOut
  rw [hE, hH]
  simp

/-- Witness for C9 at a concrete empty run. -/
theorem C9_witness :
    (Emissions.finalSt envTriv .missing [] []).new_count = 0 ∧
    (Hydrogen.finalSt envTriv .missing [] []).new_count = 0 ∧
    (Emissions.scrape_and_update envTriv .missing [] []).indexFile = .missing ∧
    Emissions.mainPushes envTriv .missing [] [] = false ∧
    (Hydrogen.scrape_and_update envTriv .missing [] []).ret = false := by
  have h := C9_zero_new_items_noop envTriv envTriv .missing .missing [] [] [] [] rfl rfl
  exact ⟨rfl, rfl, h.1, h.2.2.1, h.2.2.2.2.1⟩

theorem lookupA_insertA_self (l : List (String × α)) (k : String) (v : α) :
    lookupA (insertA l k v) k = some v := by
  simp [lookupA, insertA, List.lookup]

theorem lookupA_eraseA_self (l : List (String × α)) (k : String) :
    lookupA (eraseA l k) k = none := by
  unfold lookupA eraseA
  induction l with
  | nil => rfl
  | cons p t ih =>
      by_cases h : p.1 = k
      · simpa [List.filter_cons, h] using ih
      · simp only [List.filter_cons]
        rw [if_pos (by simp [h])]
        have hb : (k == p.1) = false := beq_eq_false_iff_ne.mpr (fun he => h he.symm)
        simp only [List.lookup, hb]
        exact ih

namespace Sched

theorem tickAux_noop (now : DateTime) :
    ∀ (l : List DraftMeta) (s : PubState),
      (∀ m ∈ l, isDueB now m = false ∨ lookupA s.draftsArea m.slug = none) →
      tickAux now l s = s := by
  intro l
  induction l with
  | nil => intro s _; rfl
  | cons m rest ih =>
      intro s h
      have hrest : ∀ x ∈ rest, isDueB now x = false ∨ lookupA s.draftsArea x.slug = none :=
        fun x hx => h x (List.mem_cons_of_mem m hx)
      rcases h m (List.mem_cons_self m rest) with hm | hm
      · simp only [tickAux]
        rw [if_neg (by simp [hm])]
        exact ih s hrest
      · by_cases hd : isDueB now m
        · simp only [tickAux]
          rw [if_pos hd]
          have hp : (publish m s).1 = s := by
            unfold publish
            rw [hm]
          rw [hp]
          exact ih s hrest
        · simp only [tickAux]
          rw [if_neg hd]
          exact ih s hrest

theorem tickAux_pub (now : DateTime) (meta : DraftMeta) (content : String) :
    ∀ (l : List DraftMeta) (s : PubState),
      meta ∈ l →
      (∀ m ∈ l, m ≠ meta → isDueB now m = false) →
      isDueB now meta = true →
      lookupA s.draftsArea meta.slug = some content →
      tickAux now l s =
        { draftsArea := eraseA s.draftsArea meta.slug,
          postsArea := insertA s.postsArea meta.slug content,
          blogPosts := mkEntry meta :: s.blogPosts,
          draftPosts := s.draftPosts.filter (fun p => !(p.slug == meta.slug)) } := by
  intro l
  induction l with
  | nil => intro s h; cases h
  | cons m rest ih =>
      intro s hmem hnd hdue hlook
      by_cases hm : m = meta
      · subst hm
        simp only [tickAux]
        rw [if_pos hdue]
        have hp : (publish m s).1 =
            { draftsArea := eraseA s.draftsArea m.slug,
              postsArea := insertA s.postsArea m.slug content,
              blogPosts := mkEntry m :: s.blogPosts,
              draftPosts := s.draftPosts.filter (fun p => !(p.slug == m.slug)) } := by
          unfold publish
          rw [hlook]
        rw [hp]
        apply tickAux_noop
        intro x hx
        by_cases hxm : x = m
        · subst hxm
          exact Or.inr (lookupA_eraseA_self _ _)
        · exact Or.inl (hnd x (List.mem_cons_of_mem m hx) hxm)
      · have hnotdue : isDueB now m = false :=
          hnd m (List.mem_cons_self m rest) hm
        simp only [tickAux]
        rw [if_neg (by simp [hnotdue])]
        have hmem2 : meta ∈ rest := by
          rcases List.mem_cons.mp hmem with h | h
          · exact absurd h.symm hm
          · exact h
        exact ih s hmem2 (fun x hx hxm => hnd x (List.mem_cons_of_mem m hx) hxm) hdue hlook

end Sched

/-- C1: one tick publishes a due draft whose schedule parses to a time at or
before the tick time and whose drafts-area content file exists: the content is
copied to the published area, the drafts-area file is removed, exactly one
trimmed metadata record is inserted at the head of the published manifest, and
every entry with that slug is removed from the draft manifest.  The draft in
question is the (unique) due draft of this tick. -/
theorem C1_tick_publishes_due_draft (now : Sched.DateTime) (meta : Sched.DraftMeta)
    (s : Sched.PubState) (content : String)
    (hmem : meta ∈ s.draftPosts)
    (honly : ∀ m ∈ s.draftPosts, m ≠ meta → Sched.isDueB now m = false)
    (hsch : ∃ sch dt, meta.scheduled = some sch ∧ Sched.parseSched sch = some dt ∧
      Sched.dtLe dt now = true)
    (hcontent : lookupA s.draftsArea meta.slug = some content) :
    lookupA (Sched.tick now s).postsArea meta.slug = some content ∧
    lookupA (Sched.tick now s).draftsArea meta.slug = none ∧
    (Sched.tick now s).blogPosts = Sched.mkEntry meta :: s.blogPosts ∧
    (Sched.tick now s).draftPosts = s.draftPosts.filter (fun p => !(p.slug == meta.slug)) := by
  have hdue : Sched.isDueB now meta = true := by
    obtain ⟨sch, dt, h1, h2, h3⟩ := hsch
    have hne : (sch == "") = false := by
      rcases eq_or_ne sch "" with he | he
      · rw [he] at h2
        have hnp : Sched.parseSched "" = none := by decide
        rw [hnp] at h2
        cases h2
      · simpa using he
    simp only [Sched.isDueB, h1]
    rw [if_neg (by simp [hne])]
    simp only [h2]
    exact h3
  have h := Sched.tickAux_pub now meta content s.draftPosts s hmem honly hdue hcontent
  unfold Sched.tick
  rw [h]
  exact ⟨lookupA_insertA_self _ _ _, lookupA_eraseA_self _ _, rfl, rfl⟩

/-- Witness for C1: a draft scheduled at 2025-01-01 09:00 with its content
file present, ticked at 2025-01-01 10:00, is published. -/
theorem C1_witness :
    lookupA (Sched.tick ⟨2025, 1, 1, 10, 0⟩ stateW).postsArea "post-1" = some "BODY" ∧
    lookupA (Sched.tick ⟨2025, 1, 1, 10, 0⟩ stateW).draftsArea "post-1" = none ∧
    (Sched.tick ⟨2025, 1, 1, 10, 0⟩ stateW).blogPosts = [Sched.mkEntry metaW] ∧
    (Sched.tick ⟨2025, 1, 1, 10, 0⟩ stateW).draftPosts = [] := by
  have h := C1_tick_publishes_due_draft ⟨2025, 1, 1, 10, 0⟩ metaW stateW "BODY"
    (by decide) (by decide)
    ⟨"2025-01-01 09:00", ⟨2025, 1, 1, 9, 0⟩, rfl, by decide, by decide⟩
    (by decide)
  exact ⟨h.1, h.2.1, h.2.2.1, h.2.2.2⟩

/-- C2: a tick never publishes a draft whose scheduled field is null (or
falsy), unparseable, or strictly in the future, and a due draft whose content
file is missing mutates nothing: when every draft is of one of these kinds the
tick leaves the whole state unchanged. -/
theorem C2_tick_never_publishes (now : Sched.DateTime) (s : Sched.PubState)
    (h : ∀ m ∈ s.draftPosts,
      Sched.isDueB now m = false ∨ lookupA s.draftsArea m.slug = none) :
    Sched.tick now s = s :=
  Sched.tickAux_noop now s.draftPosts s h

/-- Witness for C2: drafts with null, empty, unparseable and future schedules
plus a due draft with a missing content file leave the state unchanged. -/
theorem C2_witness : Sched.tick ⟨2026, 1, 1, 0, 0⟩ stateC2 = stateC2 :=
  C2_tick_never_publishes ⟨2026, 1, 1, 0, 0⟩ stateC2 (by decide)

theorem flushOut_archive (fs : FileState (List NewsItem)) (st : ScrapeSt) :
    (flushOut fs st).archive = st.archive := by
  unfold flushOut
  by_cases h : st.new_count > 0 <;> simp [h]

theorem flushOut_inv (fs : FileState (List NewsItem)) (st : ScrapeSt) (h : invFile fs) :
    invFile (flushOut fs st).indexFile := by
  unfold flushOut
  by_cases hc : st.new_count > 0
  · rw [if_pos hc]
    intro l hl
    simp only at hl
    injection hl with hl
    subst hl
    constructor
    · rw [List.length_take]
      exact Nat.min_le_left _ _
    · have hs : List.Sorted newsGe (pySortDesc st.news_index) :=
        List.sorted_insertionSort newsGe _
      exact List.Pairwise.sublist (List.take_sublist _ _) hs
  · rw [if_neg hc]
    exact h

theorem sorted_drop_le_take (l : List NewsItem) :
    ∀ x ∈ (pySortDesc l).drop 50, ∀ y ∈ (pySortDesc l).take 50, newsKeyLe x y := by
  intro x hx y hy
  have hs : List.Sorted newsGe (pySortDesc l) := List.sorted_insertionSort newsGe l
  have h2 : List.Pairwise newsGe ((pySortDesc l).take 50 ++ (pySortDesc l).drop 50) := by
    rw [List.take_append_drop]
    exact hs
  exact (List.pairwise_append.mp h2).2.2 y hy x hx

theorem lookupA_cons_isSome (ar : List (String × NewsItem)) (nm : String) (it : NewsItem)
    (k : String) (h : (lookupA ar k).isSome) : (lookupA ((nm, it) :: ar) k).isSome := by
  unfold lookupA at h ⊢
  by_cases hb : (k == nm) = true
  · simp [List.lookup, hb]
  · have hb2 : (k == nm) = false := by simpa using hb
    simp only [List.lookup, hb2]
    exact h

theorem emProc_archive_cases (env : ScrapeEnv) (st : ScrapeSt) (e : FeedEntry) :
    (Emissions.procEntry env st e).archive = st.archive ∨
    ∃ nm it, (Emissions.procEntry env st e).archive = (nm, it) :: st.archive := by
  unfold Emissions.procEntry
  dsimp only
  repeat' split
  all_goals first
    | exact Or.inl rfl
    | exact Or.inr ⟨_, _, rfl⟩

theorem hyProc_archive_cases (env : ScrapeEnv) (st : ScrapeSt) (e : FeedEntry) :
    (Hydrogen.procEntry env st e).archive = st.archive ∨
    ∃ nm it, (Hydrogen.procEntry env st e).archive = (nm, it) :: st.archive := by
  unfold Hydrogen.procEntry
  dsimp only
  repeat' split
  all_goals first
    | exact Or.inl rfl
    | exact Or.inr ⟨_, _, rfl⟩

theorem foldl_archive_mono (f : ScrapeSt → FeedEntry → ScrapeSt)
    (hf : ∀ st e, (f st e).archive = st.archive ∨
      ∃ nm it, (f st e).archive = (nm, it) :: st.archive) :
    ∀ (l : List FeedEntry) (st : ScrapeSt) (k : String),
      (lookupA st.archive k).isSome → (lookupA (l.foldl f st).archive k).isSome := by
  intro l
  induction l with
  | nil => intro st k h; exact h
  | cons e rest ih =>
      intro st k h
      simp only [List.foldl_cons]
      apply ih
      rcases hf st e with h2 | ⟨nm, it, h2⟩
      · rw [h2]; exact h
      · rw [h2]; exact lookupA_cons_isSome _ _ _ _ h

/-- C4: after any run (any sequence of archive insertions followed by the
end-of-run flush), the persisted rolling index keeps the invariant of holding
at most 50 records sorted by (date desc, score desc); truncation only ever
drops items whose sort key is dominated by every kept item, and archive files
are never removed (the archive directory only gains entries).  Stated for both
scrapers. -/
theorem C4_rolling_index_invariant (envE envH : ScrapeEnv)
    (fsE fsH : FileState (List NewsItem)) (arE arH : List (String × NewsItem))
    (entE entH : List FeedEntry)
    (hE : invFile fsE) (hH : invFile fsH) :
    invFile (Emissions.scrape_and_update envE fsE arE entE).indexFile ∧
    invFile (Hydrogen.scrape_and_update envH fsH arH entH).indexFile ∧
    (∀ k, (lookupA arE k).isSome →
      (lookupA (Emissions.scrape_and_update envE fsE arE entE).archive k).isSome) ∧
    (∀ k, (lookupA arH k).isSome →
      (lookupA (Hydrogen.scrape_and_update envH fsH arH entH).archive k).isSome) ∧
    (∀ x ∈ (pySortDesc (Emissions.finalSt envE fsE arE entE).news_index).drop 50,
      ∀ y ∈ (pySortDesc (Emissions.finalSt envE fsE arE entE).news_index).take 50,
        newsKeyLe x y) ∧
    (∀ x ∈ (pySortDesc (Hydrogen.finalSt envH fsH arH entH).news_index).drop 50,
      ∀ y ∈ (pySortDesc (Hydrogen.finalSt envH fsH arH entH).news_index).take 50,
        newsKeyLe x y) := by
  refine ⟨flushOut_inv _ _ hE, flushOut_inv _ _ hH, ?_, ?_, sorted_drop_le_take _,
    sorted_drop_le_take _⟩
  · intro k h
    rw [Emissions.scrape_and_update, flushOut_archive]
    exact foldl_archive_mono _ (emProc_archive_cases envE) entE _ k h
  · intro k h
    rw [Hydrogen.scrape_and_update, flushOut_archive]
    exact foldl_archive_mono _ (hyProc_archive_cases envH) entH _ k h

/-- Witness for C4 at concrete empty runs over an empty, trivially sorted
index artifact. -/
theorem C4_witness :
    invFile (FileState.good ([] : List NewsItem)) ∧
    invFile (Emissions.scrape_and_update envTriv (FileState.good []) [] []).indexFile ∧
    invFile (Hydrogen.scrape_and_update envTriv (FileState.good []) [] []).indexFile := by
  have hinv : invFile (FileState.good ([] : List NewsItem)) := by
    intro l hl
    injection hl with hl
    subst hl
    exact ⟨by norm_num, List.Pairwise.nil⟩
  have h := C4_rolling_index_invariant envTriv envTriv (FileState.good []) (FileState.good [])
    [] [] [] [] hinv hinv
  exact ⟨hinv, h.1, h.2.1⟩

theorem emProc_skip (env : ScrapeEnv) (st : ScrapeSt) (e : FeedEntry)
    (h : some (resolve_url e.link) ∈ st.existing_urls ∨ some e.link ∈ st.existing_urls) :
    Emissions.procEntry env st e = st := by
  unfold Emissions.procEntry
  by_cases hk : Emissions.KEYWORDS.any (fun key => pyContains (pyLower e.title) (pyLower key))
  · have hc : ¬ ((!(st.existing_urls.contains (some (resolve_url e.link)))
        && !(st.existing_urls.contains (some e.link))) = true) := by
      rcases h with h | h <;> simp [h]
    rw [if_pos hk, if_neg hc]
  · rw [if_neg hk]

theorem hyProc_skip (env : ScrapeEnv) (st : ScrapeSt) (e : FeedEntry)
    (h : some e.link ∈ st.existing_urls) :
    Hydrogen.procEntry env st e = st := by
  unfold Hydrogen.procEntry
  by_cases hk : Hydrogen.KEYWORDS.any (fun key => pyContains (pyLower e.title) (pyLower key))
  · rw [if_pos hk, if_neg (by simp [h])]
  · rw [if_neg hk]

theorem foldl_fixed (f : ScrapeSt → FeedEntry → ScrapeSt) :
    ∀ (l : List FeedEntry) (s : ScrapeSt), (∀ e ∈ l, f s e = s) → l.foldl f s = s := by
  intro l
  induction l with
  | nil => intro s _; rfl
  | cons e rest ih =>
      intro s h
      simp only [List.foldl_cons, h e (List.mem_cons_self e rest)]
      exact ih s (fun x hx => h x (List.mem_cons_of_mem e hx))

/-- C3 (amended): a URL already recorded in the rolling index is never
re-archived: a run whose every entry matches a recorded index URL (in the
emissions scraper in wrapped or canonical form, in the hydrogen scraper in the
raw link form) leaves the archive, the persisted index and the return value
untouched; a scraper run never touches the draft manifests at all.  URLs
recorded only in the draft or published manifests do not prevent
re-archiving. -/
theorem C3_amended_index_dedup (envE envH : ScrapeEnv)
    (fsE fsH : FileState (List NewsItem)) (arE arH : List (String × NewsItem))
    (entE entH : List FeedEntry)
    (hE : ∀ e ∈ entE, some (resolve_url e.link) ∈ (loadIndexFile fsE).map itemUrl ∨
      some e.link ∈ (loadIndexFile fsE).map itemUrl)
    (hH : ∀ e ∈ entH, some e.link ∈ (loadIndexFile fsH).map itemUrl) :
    Emissions.scrape_and_update envE fsE arE entE =
      { indexFile := fsE, archive := arE, new_count := 0, ret := false } ∧
    Hydrogen.scrape_and_update envH fsH arH entH =
      { indexFile := fsH, archive := arH, new_count := 0, ret := false } := by
  constructor
  · have h1 : Emissions.finalSt envE fsE arE entE =
        { news_index := loadIndexFile fsE,
          existing_urls := (loadIndexFile fsE).map itemUrl,
          archive := arE, new_count := 0 } := by
      unfold Emissions.finalSt
      dsimp only
      exact foldl_fixed _ entE _ (fun e he => emProc_skip envE _ e (hE e he))
    rw [Emissions.scrape_and_update, h1]
    rfl
  · have h1 : Hydrogen.finalSt envH fsH arH entH =
        { news_index := loadIndexFile fsH,
          existing_urls := (loadIndexFile fsH).map itemUrl,
          archive := arH, new_count := 0 } := by
      unfold Hydrogen.finalSt
      dsimp only
      exact foldl_fixed _ entH _ (fun e he => hyProc_skip envH _ e (hH e he))
    rw [Hydrogen.scrape_and_update, h1]
    rfl

/-- Witness for the amended C3: re-ingesting a URL recorded in each index is a
complete no-op for both scrapers. -/
theorem C3_amended_witness :
    Emissions.scrape_and_update envC3
      (FileState.good [⟨1, "2025-12-01", "CO2 post", "s", "c",
        some "https://example.com/a", none, "example.com", 50⟩]) [] [entryC3] =
      { indexFile := FileState.good [⟨1, "2025-12-01", "CO2 post", "s", "c",
          some "https://example.com/a", none, "example.com", 50⟩],
        archive := [], new_count := 0, ret := false } ∧
    Hydrogen.scrape_and_update envC7
      (FileState.good [⟨2, "2025-12-01", "H2 post", "s", "c",
        some "https://www.google.nl/url?url=https://example.com/a", none, "google.nl", 50⟩])
      [] [entryC7] =
      { indexFile := FileState.good [⟨2, "2025-12-01", "H2 post", "s", "c",
          some "https://www.google.nl/url?url=https://example.com/a", none, "google.nl", 50⟩],
        archive := [], new_count := 0, ret := false } := by
  have h := C3_amended_index_dedup envC3 envC7
    (FileState.good [⟨1, "2025-12-01", "CO2 post", "s", "c",
      some "https://example.com/a", none, "example.com", 50⟩])
    (FileState.good [⟨2, "2025-12-01", "H2 post", "s", "c",
      some "https://www.google.nl/url?url=https://example.com/a", none, "google.nl", 50⟩])
    [] [] [entryC3] [entryC7] (by decide) (by decide)
  exact h

/-- Counterexample to C3 as stated: the canonical URL sits in the draft
manifest (and nowhere in the rolling index), yet re-ingesting it archives a
new record and grows the persisted index — the scrapers dedup only against the
rolling index, not against the manifests. -/
theorem C3_counterexample :
    ¬ c3ClaimHolds envC3 (FileState.good []) [] [draftC3] [] entryC3
      "https://example.com/a" := by
  intro h
  have h2 := (h (by decide) (Or.inr rfl)).2
  revert h2
  decide

/-- C7 (amended): the emissions scraper unwraps redirect URLs before the
duplicate check and skips an entry when either the wrapped or the canonical
form is known; the hydrogen scraper performs no unwrapping and skips only on
the raw entry link. -/
theorem C7_amended_redirect_dedup (env : ScrapeEnv) (st : ScrapeSt) (e : FeedEntry) :
    ((some (resolve_url e.link) ∈ st.existing_urls ∨ some e.link ∈ st.existing_urls) →
      Emissions.procEntry env st e = st) ∧
    (some e.link ∈ st.existing_urls → Hydrogen.procEntry env st e = st) :=
  ⟨emProc_skip env st e, hyProc_skip env st e⟩

/-- Witness for the amended C7 at concrete entries: the emissions scraper
skips a wrapped entry whose canonical form is known; the hydrogen scraper
skips an entry whose raw link is known. -/
theorem C7_witness :
    Emissions.procEntry envC7 stC7 entryC7 = stC7 ∧
    Hydrogen.procEntry envC7 stC7
      ⟨"Hydrogen vessel order", "https://example.com/a",
        "https://feeds.example.com/rss"⟩ = stC7 :=
  ⟨(C7_amended_redirect_dedup envC7 stC7 entryC7).1 (Or.inl (by decide)),
    (C7_amended_redirect_dedup envC7 stC7
      ⟨"Hydrogen vessel order", "https://example.com/a",
        "https://feeds.example.com/rss"⟩).2 (by decide)⟩

/-- Counterexample to C7 as stated: the hydrogen scraper does not unwrap
redirect URLs — an entry whose Google-wrapped link resolves to a known
canonical URL is archived again (the run state changes), although the claim
says it is skipped. -/
theorem C7_counterexample : ¬ c7ClaimHolds := by
  intro h
  have h2 := (h envC7 stC7 entryC7 (Or.inl (by decide))).2
  have h3 : (Hydrogen.procEntry envC7 stC7 entryC7).new_count = 1 := by decide
  rw [h2] at h3
  exact absurd h3 (by decide)

/-- C8 (amended): the scrapers fall back to an empty index on malformed JSON,
but the publication tick's `load_json` yields its default only for a missing
file and raises (propagates the parse error) on malformed JSON; a draft record
whose scheduled timestamp does not parse is skipped by the tick without
aborting the run. -/
theorem C8_amended_load_errors (m : Sched.DraftMeta) (rest : List Sched.DraftMeta)
    (s : Sched.PubState) (now : Sched.DateTime) (sch : String)
    (d : List Sched.DraftMeta)
    (h1 : m.scheduled = some sch) (h2 : Sched.parseSched sch = none) :
    Sched.tickAux now (m :: rest) s = Sched.tickAux now rest s ∧
    loadIndexFile FileState.malformed = ([] : List NewsItem) ∧
    Sched.load_json FileState.malformed d = Except.error () ∧
    Sched.load_json FileState.missing d = Except.ok d := by
  refine ⟨?_, rfl, rfl, rfl⟩
  have hd : Sched.isDueB now m = false := by
    simp only [Sched.isDueB, h1]
    by_cases he : (sch == "") = true
    · rw [if_pos he]
    · rw [if_neg he]
      simp only [h2]
  simp only [Sched.tickAux]
  rw [if_neg (by simp [hd])]

/-- Witness for the amended C8: a draft scheduled as `"soon"` is skipped by
the tick, and the loaders behave as stated on malformed and missing files. -/
theorem C8_witness :
    Sched.tickAux ⟨2026, 1, 1, 0, 0⟩ [metaBad] emptyPub =
      Sched.tickAux ⟨2026, 1, 1, 0, 0⟩ [] emptyPub ∧
    loadIndexFile FileState.malformed = ([] : List NewsItem) ∧
    Sched.load_json FileState.malformed ([] : List Sched.DraftMeta) = Except.error () ∧
    Sched.load_json FileState.missing ([] : List Sched.DraftMeta) = Except.ok [] :=
  C8_amended_load_errors metaBad [] emptyPub ⟨2026, 1, 1, 0, 0⟩ "soon" [] rfl (by decide)

/-- Counterexample to C8 as stated: loading a malformed manifest through the
tick's `load_json` does not yield the empty default — it raises
(`json.load` runs outside any `try`/`except` in `check_scheduled_emissions.py`). -/
theorem C8_counterexample :
    Sched.load_json (FileState.malformed : FileState (List Sched.DraftMeta)) [] ≠
      Except.ok [] ∧
    Sched.load_json (FileState.malformed : FileState (List Sched.DraftMeta)) [] =
      Except.error () :=
  ⟨fun h => Except.noConfusion h, rfl⟩

/-- C6 (amended): the produced slug is never a member of the existing set; it
is the base itself when the base is free, and otherwise `base[:57]-n` for some
counter `n ≥ 2` (so its length is bounded by `max(len(base), 58 + digits(n))`,
which can exceed 60 once the counter reaches 100, and on collision the suffix
is attached to the *truncated* base, not to the colliding slug); a second
draft from an identically-slugified title therefore gets a distinct slug. -/
theorem C6_amended_unique_slug (base : String) (existing : List String) :
    BlogGen.make_unique_slug base existing ∉ existing ∧
    (BlogGen.make_unique_slug base existing = base ∨
      ∃ m, 2 ≤ m ∧ BlogGen.make_unique_slug base existing = BlogGen.candSlug base m) ∧
    BlogGen.make_unique_slug base (BlogGen.make_unique_slug base existing :: existing) ≠
      BlogGen.make_unique_slug base existing := by
  refine ⟨BlogGen.make_unique_slug_not_mem base existing,
    BlogGen.make_unique_slug_form base existing, ?_⟩
  intro he
  have h := BlogGen.make_unique_slug_not_mem base
    (BlogGen.make_unique_slug base existing :: existing)
  rw [he] at h
  exact h (List.mem_cons_self _ _)

/-- Counterexample to C6 as stated: for a 60-character base slug (its own
slugification) colliding with itself, the produced slug is the base truncated
to 57 characters plus `-2` — it does not differ from the colliding slug only
by a numeric suffix. -/
theorem C6_counterexample :
    BlogGen.slugify baseA = baseA ∧ ¬ c6ClaimHolds baseA [baseA] := by
  constructor
  · decide
  · intro hcl
    obtain ⟨-, -, h3, -⟩ := hcl
    obtain ⟨n, hn, heq⟩ := h3 (List.mem_cons_self _ _)
    have he : BlogGen.make_unique_slug baseA [baseA] = BlogGen.candSlug baseA 2 := by
      unfold BlogGen.make_unique_slug
      rw [if_pos (List.mem_cons_self _ _)]
      rw [BlogGen.muLoop]
      rw [dif_neg (by decide)]
    rw [he] at heq
    have hlen := congrArg String.length heq
    rw [String.length_append, String.length_append] at hlen
    have h1 : (BlogGen.candSlug baseA 2).length = 59 := by decide
    have h2 : baseA.length = 60 := by decide
    have h4 : ("-" : String).length = 1 := by decide
    omega
